import Mathlib

/-!
Shallow embedding of `src/openai_responses/api/inference/ollama.py`.

The module adapts a text-fragment streaming backend (Ollama) to a
token-at-a-time pull interface.  Per session (`OlmSession`) a producer
thread re-encodes the accumulated text after every fragment and publishes
the token suffix beyond the previously published count into a buffer; the
consumer pulls tokens with `infer_next_token`.  A registry
(`OllamaModelConnection`) maps session ids to sessions.

Modelling conventions:
* machine state is passed explicitly; the producer loop and the consumer
  wait loop are fueled recursions (fuel counts loop iterations);
* the sequential interleaving in which the producer finishes a turn before
  the consumer's first pull is used for whole-turn results — the pulled
  token sequence is interleaving-independent because the buffer is FIFO
  (producer appends at the back, consumer pops at the front);
* Python exceptions become an `Option String` error slot / a `PullOutcome`
  value; `threading.Event` becomes `PyEvent` with its `is_set` bit, kept as
  a structure because `OlmSession.close` tests the truthiness of the Event
  *object* (which is always truthy) rather than calling `is_set`.
-/

/-- `EOS_TOKEN = 200002`, the terminal sentinel token id. -/
def EOS_TOKEN : Int := 200002

/-- Model of `threading.Event`: only its internal flag matters. -/
structure PyEvent where
  isSet : Bool
deriving DecidableEq

/-- Python truthiness of an `Event` object: any object is truthy, regardless
of whether the event is set.  (`OlmSession.close` writes
`not self._stream_done` where `self._stream_done` is the Event object.) -/
def pyEventTruthy (_ : PyEvent) : Bool := true

/-- One chunk yielded by `client.generate(..., stream=True)`: `response`
(`some` when `isinstance(chunk.response, str)`) and the `done` flag. -/
structure Chunk where
  response : Option String
  done : Bool
deriving DecidableEq

/-- Per-session state of `OlmSession`: `_token_buffer` (a FIFO deque of
token ids), `_stream_done` / `_close_connection` events, `_stream_error`,
and `_stream_thread` (present or not). -/
structure OlmSession where
  tokenBuffer : List Int
  streamDone : PyEvent
  streamError : Option String
  closeConnection : Bool
  streamThread : Option Unit
deriving DecidableEq

/-- State of `OlmSession.__init__`: empty buffer, no thread, no error,
no event set. -/
def freshSession : OlmSession :=
  { tokenBuffer := [], streamDone := ⟨false⟩, streamError := none,
    closeConnection := false, streamThread := none }

/-- `OlmSession._reset_stream_state`: clear the buffer and both events,
drop the thread handle and the error. -/
def OlmSession.resetStreamState (s : OlmSession) : OlmSession :=
  { s with tokenBuffer := [], closeConnection := false,
           streamDone := ⟨false⟩, streamThread := none, streamError := none }

/-- Guard of the `while` loop in `OlmSession.close`:
`self._stream_thread and not self._stream_done`.  The second operand
negates the truthiness of the Event object, not `is_set()`. -/
def closeLoopGuard (s : OlmSession) : Bool :=
  s.streamThread.isSome && !pyEventTruthy s.streamDone

/-- The `while` loop of `OlmSession.close`, fueled by iteration count: each
iteration would set `_close_connection` and `join` the producer thread with
a 0.5 s timeout (the join itself does not change the modelled state). -/
def closeLoop (s : OlmSession) : Nat → OlmSession
  | 0 => s
  | fuel + 1 =>
    if closeLoopGuard s then closeLoop { s with closeConnection := true } fuel
    else s

/-- `OlmSession.close`: run the cancel/join loop, then reset the state. -/
def OlmSession.close (s : OlmSession) (fuel : Nat) : OlmSession :=
  OlmSession.resetStreamState (closeLoop s fuel)

/-- Producer-local state of `run` inside `OlmSession._start_stream`:
the accumulated text (`"".join(accum_text)`) and `last_len`. -/
structure ProdState where
  accum : String
  lastLen : Nat
deriving DecidableEq

/-- One string fragment step of the producer loop: append the fragment to
the accumulated text, re-encode the whole accumulated text, and if the
encoding is non-empty and longer than `last_len` publish the suffix beyond
`last_len` and advance `last_len`; otherwise publish nothing. -/
def runStep (encode : String → List Int) (st : ProdState) (resp : String) :
    ProdState × List Int :=
  let accum2 := st.accum ++ resp
  let toks := encode accum2
  if toks ≠ [] ∧ st.lastLen < toks.length then
    (⟨accum2, toks.length⟩, toks.drop st.lastLen)
  else
    (⟨accum2, st.lastLen⟩, [])

/-- The producer loop of `run`: the list of tokens appended to the session
buffer while iterating over the backend chunks.  `closeConn` is the value
the per-iteration `self._close_connection.is_set()` check observes (taken
constant: nothing in the embedded code ever sets it, see
`OlmSession.close`).  On a `done` chunk `EOS_TOKEN` is appended and the
loop continues to the next chunk (the Python loop has no `break` there). -/
def runChunks (encode : String → List Int) (closeConn : Bool)
    (chunks : List Chunk) (st : ProdState) : List Int :=
  match chunks with
  | [] => []
  | c :: rest =>
    if closeConn then [EOS_TOKEN]
    else
      match c.response with
      | some resp =>
        let p := runStep encode st resp
        if c.done then p.2 ++ EOS_TOKEN :: runChunks encode closeConn rest p.1
        else p.2 ++ runChunks encode closeConn rest p.1
      | none =>
        if c.done then EOS_TOKEN :: runChunks encode closeConn rest st
        else runChunks encode closeConn rest st

/-- Behaviour of the backend stream for one turn: the tokenizer's `encode`,
the chunks the generator yields, and the exception (if any) it raises after
those chunks. -/
structure Backend where
  encode : String → List Int
  chunks : List Chunk
  raises : Option String

/-- `OlmSession._start_stream` up to starting the thread: a new thread
object is stored in `_stream_thread`; the thread body has not run yet. -/
def startStreamLaunch (s : OlmSession) : OlmSession :=
  { s with streamThread := some () }

/-- `OlmSession._start_stream` with the producer run to completion
(sequential interleaving): the emitted tokens are appended to the buffer,
`_stream_done` is set (both on normal exit and in the `except` branch), and
`_stream_error` records the exception if the generator raised. -/
def startStreamRun (b : Backend) (s : OlmSession) : OlmSession :=
  let s1 := startStreamLaunch s
  let emitted := runChunks b.encode s1.closeConnection b.chunks ⟨"", 0⟩
  { s1 with tokenBuffer := s1.tokenBuffer ++ emitted,
            streamDone := ⟨true⟩, streamError := b.raises }

/-- One publish step of a producer thread that still holds `self`:
`self._token_buffer.extend(new_toks)`. -/
def producerPublish (s : OlmSession) (newToks : List Int) : OlmSession :=
  { s with tokenBuffer := s.tokenBuffer ++ newToks }

/-- Errors `infer_next_token` can raise: `ValueError` for a missing session
id (usage) and `RuntimeError` wrapping a stream error. -/
inductive InferError
  | usage (msg : String)
  | stream (msg : String)
deriving DecidableEq

/-- Result of one `infer_next_token` call: a returned token, a raised
error, or still inside the wait loop after the given fuel. -/
inductive PullOutcome
  | tok (t : Int)
  | raised (e : InferError)
  | waiting
deriving DecidableEq

/-- The wait loop and the final pop of `OlmSession.infer_next_token`:
`while not self._stream_done.is_set() and not self._token_buffer:
wait(timeout=0.1)`, then pop the front of the buffer if non-empty, else
return `EOS_TOKEN`.  Fuel counts wait-loop iterations; `none` means the
call is still waiting.  The state is static across iterations: this models
the situations the claims are about, where no producer publishes during
the wait. -/
def pullLoop (s : OlmSession) : Nat → Option (Int × OlmSession)
  | 0 => none
  | _fuel + 1 =>
    if !s.streamDone.isSet && s.tokenBuffer.isEmpty then
      pullLoop s _fuel
    else
      match s.tokenBuffer with
      | t :: rest => some (t, { s with tokenBuffer := rest })
      | [] => some (EOS_TOKEN, s)

/-- `OlmSession.infer_next_token`: on `new_request` close the session and
start (and, in this sequential model, finish) a fresh producer; then raise
a pending stream error, else wait/pop. -/
def OlmSession.infer_next_token (b : Backend) (s : OlmSession)
    (_tokens : List Int) (new_request : Bool) (fuel : Nat) :
    PullOutcome × OlmSession :=
  let s0 := if new_request then startStreamRun b (OlmSession.close s fuel) else s
  match s0.streamError with
  | some e => (PullOutcome.raised (InferError.stream ("Ollama stream error: " ++ e)), s0)
  | none =>
    match pullLoop s0 fuel with
    | some (t, s1) => (PullOutcome.tok t, s1)
    | none => (PullOutcome.waiting, s0)

/-- `dict.pop(session_id, None)` on the sessions map: the removed session
(if present) and the remaining map. -/
def popAssoc (m : List (String × OlmSession)) (sid : String) :
    Option OlmSession × List (String × OlmSession) :=
  match m with
  | [] => (none, [])
  | (k, v) :: rest =>
    if k = sid then (some v, rest)
    else
      let p := popAssoc rest sid
      (p.1, (k, v) :: p.2)

/-- Lookup in the sessions map. -/
def lookupAssoc (m : List (String × OlmSession)) (sid : String) :
    Option OlmSession :=
  match m with
  | [] => none
  | (k, v) :: rest => if k = sid then some v else lookupAssoc rest sid

/-- Write back the (mutated) session object under its id. -/
def setAssoc (m : List (String × OlmSession)) (sid : String) (v : OlmSession) :
    List (String × OlmSession) :=
  m.map fun kv => if kv.1 = sid then (sid, v) else kv

/-- `OllamaModelConnection`: the id → session map (`self._sessions`). -/
structure OllamaModelConnection where
  sessions : List (String × OlmSession)
deriving DecidableEq

/-- `OllamaModelConnection._get_or_create_session`. -/
def getOrCreate (m : List (String × OlmSession)) (sid : String) :
    OlmSession × List (String × OlmSession) :=
  match lookupAssoc m sid with
  | some s => (s, m)
  | none => (freshSession, m ++ [(sid, freshSession)])

/-- `OllamaModelConnection.close_session`: pop the id and, when a session
was there, close it.  The popped session's `close` has no effect on the
remaining map. -/
def OllamaModelConnection.close_session (c : OllamaModelConnection)
    (sid : String) : OllamaModelConnection :=
  ⟨(popAssoc c.sessions sid).2⟩

/-- `OllamaModelConnection.close`: `sess = self._sessions.pop(session_id, None)`;
when the pop found a session it is closed and only it is removed; otherwise
(id omitted — a `None` key is never stored — or id unknown) every session is
closed and the map is cleared. -/
def OllamaModelConnection.close (c : OllamaModelConnection)
    (sessionId : Option String) : OllamaModelConnection :=
  let p := match sessionId with
           | none => ((none : Option OlmSession), c.sessions)
           | some sid => popAssoc c.sessions sid
  match p.1 with
  | some _ => ⟨p.2⟩
  | none => ⟨[]⟩

/-- `OllamaModelConnection.infer_next_token`: a missing session id raises
`ValueError("session_id required for OllamaModelConnection.")`
synchronously, before any session is looked up or created; otherwise the
call is delegated to the (possibly newly created) session and the session
state written back. -/
def OllamaModelConnection.infer_next_token (b : Backend)
    (c : OllamaModelConnection) (tokens : List Int) (new_request : Bool)
    (sessionId : Option String) (fuel : Nat) :
    PullOutcome × OllamaModelConnection :=
  match sessionId with
  | none =>
    (PullOutcome.raised
      (InferError.usage "session_id required for OllamaModelConnection."), c)
  | some sid =>
    let p := getOrCreate c.sessions sid
    let q := OlmSession.infer_next_token b p.1 tokens new_request fuel
    (q.1, ⟨setAssoc p.2 sid q.2⟩)

/-- Diff sequence as the specification words it: after each fragment,
re-encode the entire accumulated text and take the suffix beyond the count
of tokens previously emitted; the result is the concatenation of these
per-fragment diffs.  (Spec-side description, to be compared with
`runChunks`.) -/
def specDiffConcat (encode : String → List Int) (frags : List String)
    (accum : String) (cnt : Nat) : List Int :=
  match frags with
  | [] => []
  | f :: rest =>
    let toks := encode (accum ++ f)
    let d := toks.drop cnt
    d ++ specDiffConcat encode rest (accum ++ f) (cnt + d.length)

/-- The chunk sequence of a turn whose backend yields the given text
fragments and then a final empty chunk, as in the repository's test
`test_infer_sequence_of_tokens_and_eos`. -/
def mkTurnChunks (frags : List String) : List Chunk :=
  frags.map (fun f => ⟨some f, false⟩) ++ [⟨some "", true⟩]

/-- Successive non-new-request pulls (each given one wait-loop round). -/
def pullsAfter (b : Backend) (s : OlmSession) : Nat → List PullOutcome
  | 0 => []
  | n + 1 =>
    let p := OlmSession.infer_next_token b s [] false 1
    p.1 :: pullsAfter b p.2 n

/-- The pulls of one turn: a first call with `new_request = True` followed
by `n` calls with `new_request = False`. -/
def turnPulls (b : Backend) (s : OlmSession) (n : Nat) : List PullOutcome :=
  let p := OlmSession.infer_next_token b s [] true 1
  p.1 :: pullsAfter b p.2 n

/-- Toy deterministic tokenizer realizing the spec scenario:
`encode "Hi" = [A]`, `encode "Hi there" = [A, B]` with `A = 65`, `B = 66`. -/
def toyEncode (s : String) : List Int :=
  if s = "Hi" then [65]
  else if s = "Hi there" then [65, 66]
  else []

/-- A backend that is never consulted (used for pulls without a new turn). -/
def idleBackend : Backend := ⟨fun _ => [], [], none⟩

/-- A session whose producer finished by raising `boom`: stream done, error
recorded, buffer empty, thread handle still present. -/
def errDoneSession : OlmSession :=
  { tokenBuffer := [], streamDone := ⟨true⟩, streamError := some "boom",
    closeConnection := false, streamThread := some () }

/-- A session whose turn completed normally and whose buffer is drained. -/
def doneCleanSession : OlmSession :=
  { tokenBuffer := [], streamDone := ⟨true⟩, streamError := none,
    closeConnection := false, streamThread := some () }

/-- A session with a live, not-yet-done producer and a drained buffer. -/
def liveSession : OlmSession :=
  { tokenBuffer := [], streamDone := ⟨false⟩, streamError := none,
    closeConnection := false, streamThread := some () }

/-- The session state right after a turn whose backend raised `e` before
yielding any fragment: empty buffer, stream done, error recorded, thread
handle still stored. -/
def failedTurn (e : String) : OlmSession :=
  { tokenBuffer := [], streamDone := ⟨true⟩, streamError := some e,
    closeConnection := false, streamThread := some () }

/-- A backend whose generator raises `boom` before yielding any chunk. -/
def failBackend : Backend := ⟨fun _ => [], [], some "boom"⟩

/-- The cancel/join loop of `OlmSession.close` executes zero iterations in
every state: its guard negates the truthiness of the `_stream_done` Event
object, which is always truthy. -/
theorem closeLoop_id (s : OlmSession) : ∀ fuel, closeLoop s fuel = s := by
  intro fuel
  cases fuel with
  | zero => rfl
  | succ k =>
    show (if closeLoopGuard s then closeLoop { s with closeConnection := true } k
          else s) = s
    have hg : closeLoopGuard s = false := by
      simp [closeLoopGuard, pyEventTruthy]
    rw [hg]
    simp

/-- On a session that is not done and has an empty buffer, with no producer
mutating the state, the wait loop never exits, whatever its fuel. -/
theorem pullLoop_stalled (s : OlmSession) (hd : s.streamDone.isSet = false)
    (hb : s.tokenBuffer = []) : ∀ fuel, pullLoop s fuel = none := by
  intro fuel
  induction fuel with
  | zero => rfl
  | succ k ih =>
    show (if !s.streamDone.isSet && s.tokenBuffer.isEmpty then pullLoop s k
          else
            match s.tokenBuffer with
            | t :: rest => some (t, { s with tokenBuffer := rest })
            | [] => some (EOS_TOKEN, s)) = none
    rw [hd, hb]
    exact ih

/-- A pull without a new request on a stalled session (not done, empty
buffer, no error) is still inside the wait loop after any fuel. -/
theorem infer_stalled (b : Backend) (tokens : List Int) (s : OlmSession)
    (hd : s.streamDone.isSet = false) (he : s.streamError = none)
    (hb : s.tokenBuffer = []) (fuel : Nat) :
    OlmSession.infer_next_token b s tokens false fuel
      = (PullOutcome.waiting, s) := by
  have h := pullLoop_stalled s hd hb fuel
  obtain ⟨buf, ⟨db⟩, err, cc, th⟩ := s
  obtain rfl : err = (none : Option String) := he
  show (match pullLoop ⟨buf, ⟨db⟩, none, cc, th⟩ fuel with
        | some (t, s1) => (PullOutcome.tok t, s1)
        | none => (PullOutcome.waiting, (⟨buf, ⟨db⟩, none, cc, th⟩ : OlmSession)))
      = (PullOutcome.waiting, (⟨buf, ⟨db⟩, none, cc, th⟩ : OlmSession))
  rw [h]

/-- Draining a finished (done, no error) session whose buffer holds `L`
with one pull per element returns exactly `L`, in order. -/
theorem pullsAfter_drains (b : Backend) :
    ∀ (L : List Int) (s : OlmSession),
      s.streamDone = ⟨true⟩ → s.streamError = none → s.tokenBuffer = L →
      pullsAfter b s L.length = L.map PullOutcome.tok := by
  intro L
  induction L with
  | nil => intro s _ _ _; rfl
  | cons t rest ih =>
    intro s hD hE hB
    obtain ⟨buf, ⟨db⟩, err, cc, th⟩ := s
    obtain rfl : db = true := congrArg PyEvent.isSet hD
    obtain rfl : err = (none : Option String) := hE
    obtain rfl : buf = t :: rest := hB
    show PullOutcome.tok t
        :: pullsAfter b ⟨rest, ⟨true⟩, none, cc, th⟩ rest.length
      = PullOutcome.tok t :: rest.map PullOutcome.tok
    exact congrArg (List.cons (PullOutcome.tok t))
      (ih ⟨rest, ⟨true⟩, none, cc, th⟩ rfl rfl rfl)

/-- The producer loop on a turn of text fragments followed by a final empty
chunk publishes exactly the spec's concatenation of per-fragment diffs,
followed by the terminal sentinel. -/
theorem runChunks_mkTurn (encode : String → List Int) :
    ∀ (frags : List String) (accum : String) (lastLen : Nat),
      (encode accum).length ≤ lastLen →
      runChunks encode false (mkTurnChunks frags) ⟨accum, lastLen⟩
        = specDiffConcat encode frags accum lastLen ++ [EOS_TOKEN] := by
  intro frags
  induction frags with
  | nil =>
    intro accum lastLen hle
    have hnc : ¬(encode (accum ++ "") ≠ [] ∧
        lastLen < (encode (accum ++ "")).length) := by
      rw [String.append_empty]
      rintro ⟨-, hlt⟩
      exact absurd hlt (Nat.not_lt.mpr hle)
    have hstep : runStep encode ⟨accum, lastLen⟩ ""
        = (⟨accum ++ "", lastLen⟩, []) := by
      unfold runStep
      rw [if_neg hnc]
    show (runStep encode ⟨accum, lastLen⟩ "").2 ++ [EOS_TOKEN]
        = specDiffConcat encode [] accum lastLen ++ [EOS_TOKEN]
    rw [hstep]
    rfl
  | cons f rest ih =>
    intro accum lastLen hle
    by_cases hC : encode (accum ++ f) ≠ [] ∧
        lastLen < (encode (accum ++ f)).length
    · have hstep : runStep encode ⟨accum, lastLen⟩ f
          = (⟨accum ++ f, (encode (accum ++ f)).length⟩,
             (encode (accum ++ f)).drop lastLen) := by
        unfold runStep
        rw [if_pos hC]
      show (runStep encode ⟨accum, lastLen⟩ f).2
          ++ runChunks encode false (mkTurnChunks rest)
               (runStep encode ⟨accum, lastLen⟩ f).1
        = specDiffConcat encode (f :: rest) accum lastLen ++ [EOS_TOKEN]
      rw [hstep]
      show (encode (accum ++ f)).drop lastLen
          ++ runChunks encode false (mkTurnChunks rest)
               ⟨accum ++ f, (encode (accum ++ f)).length⟩
        = specDiffConcat encode (f :: rest) accum lastLen ++ [EOS_TOKEN]
      rw [ih (accum ++ f) (encode (accum ++ f)).length (Nat.le_refl _)]
      show (encode (accum ++ f)).drop lastLen
          ++ (specDiffConcat encode rest (accum ++ f)
                (encode (accum ++ f)).length ++ [EOS_TOKEN])
        = ((encode (accum ++ f)).drop lastLen
            ++ specDiffConcat encode rest (accum ++ f)
                 (lastLen + ((encode (accum ++ f)).drop lastLen).length))
          ++ [EOS_TOKEN]
      rw [List.length_drop, Nat.add_sub_cancel' (Nat.le_of_lt hC.2),
          List.append_assoc]
    · have hlen2 : (encode (accum ++ f)).length ≤ lastLen := by
        rcases Nat.lt_or_ge lastLen (encode (accum ++ f)).length with hgt | hge
        · exact absurd ⟨List.ne_nil_of_length_pos
            (Nat.lt_of_le_of_lt (Nat.zero_le _) hgt), hgt⟩ hC
        · exact hge
      have hstep : runStep encode ⟨accum, lastLen⟩ f
          = (⟨accum ++ f, lastLen⟩, []) := by
        unfold runStep
        rw [if_neg hC]
      show (runStep encode ⟨accum, lastLen⟩ f).2
          ++ runChunks encode false (mkTurnChunks rest)
               (runStep encode ⟨accum, lastLen⟩ f).1
        = specDiffConcat encode (f :: rest) accum lastLen ++ [EOS_TOKEN]
      rw [hstep]
      show runChunks encode false (mkTurnChunks rest) ⟨accum ++ f, lastLen⟩
        = specDiffConcat encode (f :: rest) accum lastLen ++ [EOS_TOKEN]
      rw [ih (accum ++ f) lastLen hlen2]
      have hdrop : (encode (accum ++ f)).drop lastLen = [] :=
        List.drop_eq_nil_of_le hlen2
      show specDiffConcat encode rest (accum ++ f) lastLen ++ [EOS_TOKEN]
        = ((encode (accum ++ f)).drop lastLen
            ++ specDiffConcat encode rest (accum ++ f)
                 (lastLen + ((encode (accum ++ f)).drop lastLen).length))
          ++ [EOS_TOKEN]
      rw [hdrop, List.nil_append, List.length_nil, Nat.add_zero]

/-- A session-level pull never raises a usage error: an error from this
path always wraps a stream error. -/
theorem sessionPull_not_usage (b : Backend) (s : OlmSession)
    (tokens : List Int) (nr : Bool) (fuel : Nat) (msg : String) :
    (OlmSession.infer_next_token b s tokens nr fuel).1
      ≠ PullOutcome.raised (InferError.usage msg) := by
  unfold OlmSession.infer_next_token
  generalize (if nr then startStreamRun b (OlmSession.close s fuel) else s) = s0
  show (match s0.streamError with
        | some e =>
          (PullOutcome.raised (InferError.stream ("Ollama stream error: " ++ e)), s0)
        | none =>
          match pullLoop s0 fuel with
          | some (t, s1) => (PullOutcome.tok t, s1)
          | none => (PullOutcome.waiting, s0)).1
      ≠ PullOutcome.raised (InferError.usage msg)
  cases s0.streamError with
  | some e =>
    intro hcon
    simp at hcon
  | none =>
    cases pullLoop s0 fuel with
    | some p =>
      obtain ⟨t, s1⟩ := p
      intro hcon
      simp at hcon
    | none =>
      intro hcon
      simp at hcon

/-- C1: for every tokenizer with `encode "" = []` and every fragment list,
the pulls of a turn (a `new_request = True` call followed by one call per
remaining token) return, in order, exactly the concatenation of the
per-fragment diffs obtained by re-encoding the whole accumulated text and
taking the suffix beyond the previously emitted count — no duplicates, no
gaps — followed by the terminal sentinel. -/
theorem c1_turn_pulls_match_spec_diffs (encode : String → List Int)
    (frags : List String) (hnil : encode "" = []) :
    turnPulls ⟨encode, mkTurnChunks frags, none⟩ freshSession
        (specDiffConcat encode frags "" 0).length
      = (specDiffConcat encode frags "" 0 ++ [EOS_TOKEN]).map PullOutcome.tok := by
  have hrun : runChunks encode false (mkTurnChunks frags) ⟨"", 0⟩
      = specDiffConcat encode frags "" 0 ++ [EOS_TOKEN] :=
    runChunks_mkTurn encode frags "" 0 (by rw [hnil]; exact Nat.le_refl 0)
  obtain ⟨x, xs, hxxs⟩ :
      ∃ x xs, specDiffConcat encode frags "" 0 ++ [EOS_TOKEN] = x :: xs := by
    cases specDiffConcat encode frags "" 0 with
    | nil => exact ⟨EOS_TOKEN, [], rfl⟩
    | cons a as => exact ⟨a, as ++ [EOS_TOKEN], rfl⟩
  have hlen : (specDiffConcat encode frags "" 0).length = xs.length := by
    have h := congrArg List.length hxxs
    simp only [List.length_append, List.length_cons, List.length_nil] at h
    omega
  have hs0 : startStreamRun ⟨encode, mkTurnChunks frags, none⟩
        (OlmSession.close freshSession 1)
      = { tokenBuffer := x :: xs, streamDone := ⟨true⟩, streamError := none,
          closeConnection := false, streamThread := some () } := by
    show ({ tokenBuffer := [] ++ runChunks encode false (mkTurnChunks frags) ⟨"", 0⟩,
            streamDone := ⟨true⟩, streamError := none, closeConnection := false,
            streamThread := some () } : OlmSession) = _
    rw [List.nil_append, hrun, hxxs]
  have hfirst : OlmSession.infer_next_token ⟨encode, mkTurnChunks frags, none⟩
        freshSession [] true 1
      = (PullOutcome.tok x,
         { tokenBuffer := xs, streamDone := ⟨true⟩, streamError := none,
           closeConnection := false, streamThread := some () }) := by
    unfold OlmSession.infer_next_token
    rw [hs0]
    rfl
  show (OlmSession.infer_next_token ⟨encode, mkTurnChunks frags, none⟩
          freshSession [] true 1).1
      :: pullsAfter ⟨encode, mkTurnChunks frags, none⟩
           (OlmSession.infer_next_token ⟨encode, mkTurnChunks frags, none⟩
             freshSession [] true 1).2
           (specDiffConcat encode frags "" 0).length
      = (specDiffConcat encode frags "" 0 ++ [EOS_TOKEN]).map PullOutcome.tok
  rw [hfirst, hlen, hxxs]
  show PullOutcome.tok x
      :: pullsAfter ⟨encode, mkTurnChunks frags, none⟩
           { tokenBuffer := xs, streamDone := ⟨true⟩, streamError := none,
             closeConnection := false, streamThread := some () } xs.length
    = PullOutcome.tok x :: xs.map PullOutcome.tok
  exact congrArg (List.cons (PullOutcome.tok x))
    (pullsAfter_drains _ xs _ rfl rfl rfl)

/-- Witness for C1: the spec scenario, fragments `["Hi", " there"]` with
`encode "Hi" = [65]` and `encode "Hi there" = [65, 66]`; the pulls are
exactly token 65, token 66, then the sentinel. -/
theorem c1_turn_pulls_match_spec_diffs_witness :
    toyEncode "" = []
    ∧ turnPulls ⟨toyEncode, mkTurnChunks ["Hi", " there"], none⟩ freshSession
        (specDiffConcat toyEncode ["Hi", " there"] "" 0).length
      = [PullOutcome.tok 65, PullOutcome.tok 66, PullOutcome.tok EOS_TOKEN] :=
  ⟨by decide,
   (c1_turn_pulls_match_spec_diffs toyEncode ["Hi", " there"] (by decide)).trans
     (by decide)⟩

/-- C2 (code bug): `OlmSession.close` never cancels and never joins: its
loop guard `self._stream_thread and not self._stream_done` negates the
truthiness of the Event object (always truthy), so it is false in every
state and the loop body runs zero times; `close` only resets the state in
place.  Consequently an old producer, never told to stop and never joined,
can still publish a prior-turn token into the (cleared in place) buffer
right after a new turn started, and the pull following the new turn
returns that stale token (99 here). -/
theorem c2_close_never_cancels_and_stale_token_pullable :
    (∀ (s : OlmSession) (fuel : Nat), closeLoop s fuel = s)
  ∧ (∀ (s : OlmSession) (fuel : Nat),
       OlmSession.close s fuel = OlmSession.resetStreamState s)
  ∧ (startStreamLaunch (OlmSession.close liveSession 1)).closeConnection = false
  ∧ (OlmSession.infer_next_token idleBackend
       (producerPublish (startStreamLaunch (OlmSession.close liveSession 1)) [99])
       [] false 1).1 = PullOutcome.tok 99 := by
  refine ⟨fun s fuel => closeLoop_id s fuel, fun s fuel => ?_, by decide, by decide⟩
  unfold OlmSession.close
  rw [closeLoop_id]

/-- C3 (code bug): `OllamaModelConnection.close` called with an id that is
not in the registry falls into the close-all branch and removes every
session (here the unrelated session `"a"` disappears after `close "b"`);
with the id omitted it closes all sessions as specified; the neighbouring
`close_session` does implement the unknown-id no-op the spec describes. -/
theorem c3_close_unknown_id_closes_all_sessions :
    (OllamaModelConnection.close ⟨[("a", freshSession)]⟩ (some "b")).sessions = []
  ∧ (∀ c : OllamaModelConnection,
       (OllamaModelConnection.close c none).sessions = [])
  ∧ (OllamaModelConnection.close_session ⟨[("a", freshSession)]⟩ "b").sessions
      = [("a", freshSession)] :=
  ⟨by decide, fun c => rfl, by decide⟩

/-- C4 counterexample: on a session whose error is set, the pull that
surfaces the error leaves the state (including the error slot) unchanged,
so the immediately following pull raises the very same error again —
refuting that exactly one subsequent pull raises it. -/
theorem c4_error_raised_again_counterexample :
    (OlmSession.infer_next_token idleBackend errDoneSession [] false 1).1
      = PullOutcome.raised (InferError.stream "Ollama stream error: boom")
    ∧ (OlmSession.infer_next_token idleBackend
         (OlmSession.infer_next_token idleBackend errDoneSession [] false 1).2
         [] false 1).1
      = PullOutcome.raised (InferError.stream "Ollama stream error: boom") :=
  ⟨by decide, by decide⟩

/-- C4 amended: once a session's error is set, every subsequent pull (not
just one) raises that error, immediately and without waiting, and leaves
the session state — the session is done and the error stays recorded —
unchanged until a new turn or close resets it. -/
theorem c4_error_persists_across_pulls (b : Backend) (s : OlmSession)
    (tokens : List Int) (fuel : Nat) (e : String)
    (h : s.streamError = some e) :
    OlmSession.infer_next_token b s tokens false fuel
      = (PullOutcome.raised (InferError.stream ("Ollama stream error: " ++ e)), s) := by
  obtain ⟨buf, done, err, cc, th⟩ := s
  obtain rfl : err = some e := h
  rfl

/-- Witness for C4's amended theorem at the concrete errored session. -/
theorem c4_error_persists_across_pulls_witness :
    errDoneSession.streamError = some "boom"
    ∧ OlmSession.infer_next_token idleBackend errDoneSession [] false 1
      = (PullOutcome.raised (InferError.stream ("Ollama stream error: " ++ "boom")),
         errDoneSession) :=
  ⟨rfl, c4_error_persists_across_pulls idleBackend errDoneSession [] 1 "boom" rfl⟩

/-- C5 counterexample: a pull on a stalled session (fresh: empty buffer,
not done, no error, and no producer to change that) does not return
control to the caller when the bounded 0.1 s wait elapses — after a
million expired waits it is still inside the wait loop, refuting that
every pull returns within a bounded wait. -/
theorem c5_stalled_pull_still_waiting_counterexample :
    (OlmSession.infer_next_token idleBackend freshSession [] false 1000000).1
      = PullOutcome.waiting :=
  congrArg Prod.fst (infer_stalled idleBackend [] freshSession rfl rfl rfl 1000000)

/-- C5 amended: a pull with no error set returns a token within one
wait-loop round whenever the buffer is non-empty or the session is done;
but when the buffer stays empty and the session is not done the wait loop
has no overall deadline and control never returns to the caller — the
consumer can block forever when the backend stalls. -/
theorem c5_pull_returns_only_with_data_or_done (b : Backend) (s : OlmSession)
    (tokens : List Int) (fuel : Nat) (he : s.streamError = none)
    (hf : 0 < fuel) (hor : s.streamDone.isSet = true ∨ s.tokenBuffer ≠ []) :
    ∃ t s1, OlmSession.infer_next_token b s tokens false fuel
      = (PullOutcome.tok t, s1) := by
  obtain ⟨buf, ⟨db⟩, err, cc, th⟩ := s
  obtain rfl : err = (none : Option String) := he
  obtain ⟨k, rfl⟩ : ∃ k, fuel = k + 1 := ⟨fuel - 1, by omega⟩
  cases buf with
  | nil =>
    have hdb : db = true := by
      rcases hor with h | h
      · exact h
      · exact absurd rfl h
    subst hdb
    exact ⟨EOS_TOKEN, _, rfl⟩
  | cons t rest =>
    cases db with
    | true => exact ⟨t, _, rfl⟩
    | false => exact ⟨t, _, rfl⟩

/-- Witness for C5's amended theorem at a finished, drained session. -/
theorem c5_pull_returns_only_with_data_or_done_witness :
    doneCleanSession.streamError = none ∧ 0 < 1
    ∧ doneCleanSession.streamDone.isSet = true
    ∧ ∃ t s1, OlmSession.infer_next_token idleBackend doneCleanSession [] false 1
        = (PullOutcome.tok t, s1) :=
  ⟨rfl, Nat.one_pos, rfl,
   c5_pull_returns_only_with_data_or_done idleBackend doneCleanSession [] 1 rfl
     Nat.one_pos (Or.inl rfl)⟩

/-- C6 counterexample: a session that is done with an empty buffer but
whose error is set does not return the sentinel — the pull raises the
recorded error, refuting the claim for such sessions. -/
theorem c6_done_errored_pull_raises_counterexample :
    errDoneSession.streamDone.isSet = true
    ∧ errDoneSession.tokenBuffer = []
    ∧ (OlmSession.infer_next_token idleBackend errDoneSession [] false 1).1
      = PullOutcome.raised (InferError.stream "Ollama stream error: boom") :=
  ⟨rfl, rfl, by decide⟩

/-- C6 amended: for every session that is done with an empty buffer and no
error set, every further pull returns the terminal sentinel within one
wait-loop round and leaves the state unchanged, hence the sentinel result
repeats over arbitrarily many pulls until the session is closed. -/
theorem c6_done_clean_pulls_return_sentinel (b : Backend) (s : OlmSession)
    (tokens : List Int) (fuel : Nat) (hd : s.streamDone.isSet = true)
    (hb : s.tokenBuffer = []) (he : s.streamError = none) (hf : 0 < fuel) :
    OlmSession.infer_next_token b s tokens false fuel
      = (PullOutcome.tok EOS_TOKEN, s) := by
  obtain ⟨buf, ⟨db⟩, err, cc, th⟩ := s
  obtain rfl : db = true := hd
  obtain rfl : err = (none : Option String) := he
  obtain rfl : buf = ([] : List Int) := hb
  obtain ⟨k, rfl⟩ : ∃ k, fuel = k + 1 := ⟨fuel - 1, by omega⟩
  rfl

/-- Witness for C6's amended theorem at a finished, drained session. -/
theorem c6_done_clean_pulls_return_sentinel_witness :
    doneCleanSession.streamDone.isSet = true
    ∧ doneCleanSession.tokenBuffer = []
    ∧ doneCleanSession.streamError = none ∧ 0 < 1
    ∧ OlmSession.infer_next_token idleBackend doneCleanSession [] false 1
      = (PullOutcome.tok EOS_TOKEN, doneCleanSession) :=
  ⟨rfl, rfl, rfl, Nat.one_pos,
   c6_done_clean_pulls_return_sentinel idleBackend doneCleanSession [] 1 rfl rfl
     rfl Nat.one_pos⟩

/-- C7 counterexample: with a backend that raises before emitting any
fragment, the first pull of the turn raises the transport error (as the
claim says), but the second pull for the same turn raises the same error
again — it yields neither the sentinel nor a clean idle state (the thread
handle is still stored, the stream done and the error still set). -/
theorem c7_second_pull_raises_again_counterexample :
    (OlmSession.infer_next_token failBackend freshSession [] true 1).1
      = PullOutcome.raised (InferError.stream "Ollama stream error: boom")
    ∧ (OlmSession.infer_next_token failBackend
         (OlmSession.infer_next_token failBackend freshSession [] true 1).2
         [] false 1).1
      = PullOutcome.raised (InferError.stream "Ollama stream error: boom")
    ∧ ((OlmSession.infer_next_token failBackend freshSession [] true 1).2).streamThread
      = some () := by
  refine ⟨by decide, by decide, by decide⟩

/-- C7 amended: if the backend raises before emitting any fragment of a
turn, the first pull for that turn raises the transport error; the second
pull for the same turn does not hang, but instead of a sentinel or a clean
idle state it raises the same error again, the session staying in the
done-with-error state until a new turn or close. -/
theorem c7_failed_turn_both_pulls_raise (enc : String → List Int) (e : String)
    (tokens : List Int) (fuel fuel2 : Nat) :
    OlmSession.infer_next_token ⟨enc, [], some e⟩ freshSession tokens true fuel
      = (PullOutcome.raised (InferError.stream ("Ollama stream error: " ++ e)),
         failedTurn e)
    ∧ OlmSession.infer_next_token ⟨enc, [], some e⟩ (failedTurn e) tokens false fuel2
      = (PullOutcome.raised (InferError.stream ("Ollama stream error: " ++ e)),
         failedTurn e) := by
  constructor
  · unfold OlmSession.infer_next_token OlmSession.close
    rw [closeLoop_id]
    rfl
  · rfl

/-- C8: the connection-level `infer_next_token` raises the usage error
`ValueError("session_id required for OllamaModelConnection.")`
synchronously when `session_id` is `None`, leaving the registry untouched
(no session created, no worker involved); and with a session id present it
never raises a usage error, whatever the state. -/
theorem c8_usage_error_exactly_on_missing_session_id :
    (∀ (b : Backend) (c : OllamaModelConnection) (tokens : List Int)
       (nr : Bool) (fuel : Nat),
       OllamaModelConnection.infer_next_token b c tokens nr none fuel
         = (PullOutcome.raised
             (InferError.usage "session_id required for OllamaModelConnection."), c))
  ∧ (∀ (b : Backend) (c : OllamaModelConnection) (tokens : List Int)
       (nr : Bool) (sid : String) (fuel : Nat) (msg : String),
       (OllamaModelConnection.infer_next_token b c tokens nr (some sid) fuel).1
         ≠ PullOutcome.raised (InferError.usage msg)) := by
  constructor
  · intro b c tokens nr fuel
    rfl
  · intro b c tokens nr sid fuel msg
    exact sessionPull_not_usage b (getOrCreate c.sessions sid).1 tokens nr fuel msg

/-- C9: within a turn the producer's high-water mark `last_len` never
decreases across a fragment step; and a fragment whose full re-encode of
the accumulated text yields no more tokens than already published (an
empty fragment, or a re-encode that shortens the token list) publishes
nothing and leaves `last_len` unchanged. -/
theorem c9_last_len_monotone_no_shrink_publish :
    (∀ (encode : String → List Int) (st : ProdState) (resp : String),
        st.lastLen ≤ (runStep encode st resp).1.lastLen)
  ∧ (∀ (encode : String → List Int) (st : ProdState) (resp : String),
        (encode (st.accum ++ resp)).length ≤ st.lastLen →
        runStep encode st resp = (⟨st.accum ++ resp, st.lastLen⟩, [])) := by
  constructor
  · intro encode st resp
    unfold runStep
    by_cases hC : encode (st.accum ++ resp) ≠ [] ∧
        st.lastLen < (encode (st.accum ++ resp)).length
    · rw [if_pos hC]
      exact Nat.le_of_lt hC.2
    · rw [if_neg hC]
  · intro encode st resp h
    have hnc : ¬(encode (st.accum ++ resp) ≠ [] ∧
        st.lastLen < (encode (st.accum ++ resp)).length) := by
      rintro ⟨-, hlt⟩
      exact absurd hlt (Nat.not_lt.mpr h)
    unfold runStep
    rw [if_neg hnc]

/-- Witness for C9: an empty fragment on accumulated text `"Hi"` with
`last_len = 2` (the re-encode has 1 ≤ 2 tokens) publishes nothing. -/
theorem c9_last_len_monotone_no_shrink_publish_witness :
    (toyEncode ("Hi" ++ "")).length ≤ 2
    ∧ runStep toyEncode ⟨"Hi", 2⟩ "" = (⟨"Hi" ++ "", 2⟩, []) :=
  ⟨by decide,
   c9_last_len_monotone_no_shrink_publish.2 toyEncode ⟨"Hi", 2⟩ "" (by decide)⟩

/-- C10: a pull with `new_request = False` on a fresh session (no producer
ever started, empty buffer, no error, not done) never returns: for every
number of wait-loop rounds the call is still waiting, and the state it
waits on never changes since nothing can mark the stream done or fill the
buffer. -/
theorem c10_fresh_session_pull_waits_forever (b : Backend) (tokens : List Int)
    (fuel : Nat) :
    OlmSession.infer_next_token b freshSession tokens false fuel
      = (PullOutcome.waiting, freshSession) :=
  infer_stalled b tokens freshSession rfl rfl rfl fuel
